import Mathlib

/-!
Verification of the ZenJourney scheduling/prioritization core.

The embedding models:
* the greedy day scheduler from src/client/src/components/TimeBlocking.tsx
  (the `scheduleOptimization` memo), with times as exact rationals measured
  in minutes since midnight of the reference day;
* the canonical priority scorer `calculatePriorityScore` from
  src/client/src/hooks/useFirestore.ts (lines 487-497), with JavaScript
  numbers as exact rationals and possibly-missing values as `Option ℚ`.
-/

namespace ZenJourney

/-- A task as consumed by the scheduler (`Task` in src/client/src/pages/Index.tsx,
restricted to the fields the scheduling core reads).  `effort` is in hours. -/
structure Task where
  id : Nat
  priorityScore : ℚ
  effort : ℚ
  completed : Bool
deriving DecidableEq, Repr

/-- Workday configuration (`WorkdaySettings`): the `HH:MM` strings already split
into hour and minute numbers (the source does
`startTime.split(':').map(Number)`), and the break duration in minutes. -/
structure WorkdaySettings where
  startHour : Nat
  startMinute : Nat
  endHour : Nat
  endMinute : Nat
  breakDuration : ℚ
deriving DecidableEq, Repr

/-- The resolved day start (`workdayStart.setHours(startHour, startMinute, 0, 0)`),
in minutes since midnight. -/
def workdayStartMin (ws : WorkdaySettings) : ℚ :=
  60 * ws.startHour + ws.startMinute

/-- The resolved day end (`workdayEnd.setHours(endHour, endMinute, 0, 0)`),
in minutes since midnight. -/
def workdayEndMin (ws : WorkdaySettings) : ℚ :=
  60 * ws.endHour + ws.endMinute

/-- A scheduled task together with its assigned interval
(`Task & { scheduledStart: Date; scheduledEnd: Date }`), in minutes since midnight. -/
structure ScheduledTask where
  task : Task
  scheduledStart : ℚ
  scheduledEnd : ℚ
deriving DecidableEq, Repr

/-- The descending-score comparison used by
`sort((a, b) => b.priorityScore - a.priorityScore)`. -/
def scoreDesc (a b : Task) : Prop :=
  b.priorityScore ≤ a.priorityScore

instance : DecidableRel scoreDesc := fun a b =>
  inferInstanceAs (Decidable (b.priorityScore ≤ a.priorityScore))

/-- The packing loop of `scheduleOptimization`
(src/client/src/components/TimeBlocking.tsx lines 37-51): a cursor walks the
sorted tasks; a task is accepted exactly when `taskEnd <= workdayEnd`, the
cursor then advances to `taskEnd + breakDuration`; a rejected task leaves the
cursor unchanged. -/
def packTasks (dayEnd brk : ℚ) : List Task → ℚ → List ScheduledTask
  | [], _ => []
  | task :: rest, currentTime =>
    let taskEnd := currentTime + task.effort * 60
    if taskEnd ≤ dayEnd then
      ⟨task, currentTime, taskEnd⟩ :: packTasks dayEnd brk rest (taskEnd + brk)
    else
      packTasks dayEnd brk rest currentTime

/-- The scheduler's result shape, restricted to the two task lists the claims
are about (the source also returns derived totals for the UI). -/
structure ScheduleResult where
  scheduledTasks : List ScheduledTask
  unscheduledTasks : List Task
deriving DecidableEq, Repr

/-- `scheduleOptimization` from src/client/src/components/TimeBlocking.tsx:
filter out completed tasks, stable-sort by `priorityScore` descending, greedily
pack from the day start, and compute `unscheduledTasks` as the sorted tasks
whose id does not occur among the scheduled ones. -/
def scheduleOptimization (tasks : List Task) (ws : WorkdaySettings) : ScheduleResult :=
  let pendingTasks := tasks.filter (fun t => !t.completed)
  let sortedTasks := List.insertionSort scoreDesc pendingTasks
  let scheduled := packTasks (workdayEndMin ws) ws.breakDuration sortedTasks (workdayStartMin ws)
  { scheduledTasks := scheduled
    unscheduledTasks :=
      sortedTasks.filter (fun t => !(scheduled.any (fun s => s.task.id == t.id))) }

/-- The numeric path of `calculatePriorityScore` from
src/client/src/hooks/useFirestore.ts (lines 487-497).  For `priority` and
`effort`, `none` models a missing (`undefined`/`null`) or non-numeric
JavaScript argument: both are caught, by the falsy guard and by the `typeof`
guard respectively.  For `createdAt`, `none` models only a missing
(`undefined`/`null`) value — the only case the `!createdAt` guard catches;
`some c` is a valid `Date` whose `getTime()` is the timestamp `c` in
milliseconds since the epoch.  A truthy non-numeric `createdAt` (an invalid
`Date`, or a non-`Date` value) escapes the guard; that error path is modelled
by `calculatePriorityScoreJS` below.  A numeric zero is falsy in JavaScript,
hence the explicit zero test; `Math.round` is `round` (both round halves
up). -/
def calculatePriorityScore (priority effort createdAt : Option ℚ) (now : ℚ) : ℚ :=
  match priority, effort, createdAt with
  | some p, some e, some c =>
    if p = 0 ∨ e = 0 then 0
    else
      let daysSinceCreated : ℚ := max 0 ((now - c) / (1000 * 60 * 60 * 24))
      let urgencyMultiplier : ℚ := 1 + daysSinceCreated * (1 / 10)
      let efficiencyScore : ℚ := p / max e (1 / 10)
      (round (efficiencyScore * urgencyMultiplier * 10) : ℚ) / 10
  | _, _, _ => 0

/-- A JavaScript `createdAt` argument as the scorer can actually receive it:
missing (`undefined`/`null`, falsy), a valid `Date`, an Invalid `Date`
(truthy, `getTime()` returns NaN), or a truthy value that is not a `Date` at
all (`.getTime` is not a function). -/
inductive JSDate where
  | missing
  | dateOf (ms : ℚ)
  | invalidDate
  | notDate
deriving DecidableEq, Repr

/-- The observable outcome of a call to the scorer: a finite number, NaN, or
a thrown TypeError. -/
inductive ScoreOutcome where
  | num (q : ℚ)
  | nan
  | typeError
deriving DecidableEq, Repr

/-- `calculatePriorityScore` from src/client/src/hooks/useFirestore.ts with
the full JavaScript behaviour of the `createdAt` argument.  The guards run
first, in source order: `!priority || !effort || !createdAt` returns 0 for a
falsy (missing or zero or NaN) priority, effort or createdAt, then the
`typeof` guard returns 0 for a non-numeric priority or effort — all before
`createdAt.getTime()` is evaluated.  A truthy `createdAt` then reaches
`getTime()`: an Invalid `Date` yields NaN, which propagates through
`Math.max`, the arithmetic, `Math.round` and the division to a NaN result;
a non-`Date` value throws a TypeError. -/
def calculatePriorityScoreJS (priority effort : Option ℚ) (createdAt : JSDate)
    (now : ℚ) : ScoreOutcome :=
  match priority, effort with
  | some p, some e =>
    if p = 0 ∨ e = 0 then .num 0
    else
      match createdAt with
      | .missing => .num 0
      | .dateOf c => .num (calculatePriorityScore (some p) (some e) (some c) now)
      | .invalidDate => .nan
      | .notDate => .typeError
  | _, _ => .num 0

/-- The exact score formula as the specification states it (§4.1):
`(priority / max(effort, 0.1)) * (1 + max(0, (now - createdAt) / 1 day) * 0.1)`,
with no quantization.  Used to compare `calculatePriorityScore` against the
spec's words. -/
def specScoreFormula (p e c now : ℚ) : ℚ :=
  (p / max e (1 / 10)) * (1 + max 0 ((now - c) / (1000 * 60 * 60 * 24)) * (1 / 10))

/-! Concrete fixtures used by the spec's worked scenarios. -/

/-- Scenario task A: priority score 5, effort 2 h, incomplete. -/
def taskA : Task := ⟨1, 5, 2, false⟩

/-- Scenario task B: priority score 4, effort 2 h, incomplete. -/
def taskB : Task := ⟨2, 4, 2, false⟩

/-- Scenario task C: priority score 1, effort 1 h, incomplete. -/
def taskC : Task := ⟨3, 1, 1, false⟩

/-- Scenario workday 09:00-12:00 with no breaks. -/
def wsMorning : WorkdaySettings := ⟨9, 0, 12, 0, 0⟩

/-- Scenario task X: priority score 2, effort 1 h, incomplete. -/
def taskX : Task := ⟨1, 2, 1, false⟩

/-- Scenario task Y: same priority score as X, effort 1 h, incomplete. -/
def taskY : Task := ⟨2, 2, 1, false⟩

/-- Scenario workday 09:00-17:00 with 15-minute breaks. -/
def wsBreaks : WorkdaySettings := ⟨9, 0, 17, 0, 15⟩

/-- A single incomplete one-hour task for the invalid-config scenario. -/
def taskT : Task := ⟨1, 3, 1, false⟩

/-- The invalid configuration of the spec's scenario 6:
start 18:00, end 09:00 (resolved start after resolved end). -/
def wsInverted : WorkdaySettings := ⟨18, 0, 9, 0, 15⟩

/-! General lemmas about the packing loop. -/

theorem packTasks_cons_accept (dayEnd brk cur : ℚ) (t : Task) (rest : List Task)
    (h : cur + t.effort * 60 ≤ dayEnd) :
    packTasks dayEnd brk (t :: rest) cur =
      ⟨t, cur, cur + t.effort * 60⟩ :: packTasks dayEnd brk rest (cur + t.effort * 60 + brk) := by
  simp [packTasks, h]

theorem packTasks_cons_reject (dayEnd brk cur : ℚ) (t : Task) (rest : List Task)
    (h : ¬ cur + t.effort * 60 ≤ dayEnd) :
    packTasks dayEnd brk (t :: rest) cur = packTasks dayEnd brk rest cur := by
  simp [packTasks, h]

/-- The tasks underlying the packed output form a sublist of the input order:
each input task is accepted at most once, in order. -/
theorem packTasks_map_sublist (dayEnd brk : ℚ) (l : List Task) :
    ∀ cur : ℚ, List.Sublist ((packTasks dayEnd brk l cur).map ScheduledTask.task) l := by
  induction l with
  | nil => intro cur; simp [packTasks]
  | cons t rest ih =>
    intro cur
    by_cases h : cur + t.effort * 60 ≤ dayEnd
    · rw [packTasks_cons_accept _ _ _ _ _ h, List.map_cons]
      exact (ih _).cons₂ t
    · rw [packTasks_cons_reject _ _ _ _ _ h]
      exact (ih _).cons t

/-- Packing invariant: from cursor `cur`, every accepted interval starts no
earlier than `cur`, ends by `dayEnd`, has length `effort * 60`, and comes from
the input list; the accepted intervals are pairwise ordered end-before-start. -/
theorem packTasks_invariant (dayEnd brk : ℚ) (hbrk : 0 ≤ brk) (l : List Task) :
    ∀ cur : ℚ, (∀ t ∈ l, 0 < t.effort) →
      (∀ s ∈ packTasks dayEnd brk l cur,
          cur ≤ s.scheduledStart ∧ s.scheduledEnd ≤ dayEnd ∧
          s.scheduledEnd = s.scheduledStart + s.task.effort * 60 ∧ s.task ∈ l) ∧
      (packTasks dayEnd brk l cur).Pairwise
        (fun a b => a.scheduledEnd ≤ b.scheduledStart) := by
  induction l with
  | nil => intro cur _; simp [packTasks]
  | cons t rest ih =>
    intro cur hl
    have heff : 0 < t.effort := hl t (List.mem_cons_self t rest)
    have hrest : ∀ x ∈ rest, 0 < x.effort := fun x hx => hl x (List.mem_cons_of_mem t hx)
    have hstep : cur ≤ cur + t.effort * 60 + brk := by nlinarith
    by_cases h : cur + t.effort * 60 ≤ dayEnd
    · rw [packTasks_cons_accept _ _ _ _ _ h]
      obtain ⟨ihmem, ihpw⟩ := ih (cur + t.effort * 60 + brk) hrest
      constructor
      · intro s hs
        rcases List.mem_cons.mp hs with rfl | hs'
        · exact ⟨le_refl _, h, rfl, List.mem_cons_self t rest⟩
        · obtain ⟨h1, h2, h3, h4⟩ := ihmem s hs'
          exact ⟨le_trans hstep h1, h2, h3, List.mem_cons_of_mem t h4⟩
      · refine List.pairwise_cons.mpr ⟨?_, ihpw⟩
        intro s hs
        have h1 := (ihmem s hs).1
        show cur + t.effort * 60 ≤ s.scheduledStart
        linarith
    · rw [packTasks_cons_reject _ _ _ _ _ h]
      obtain ⟨ihmem, ihpw⟩ := ih cur hrest
      refine ⟨fun s hs => ?_, ihpw⟩
      obtain ⟨h1, h2, h3, h4⟩ := ihmem s hs
      exact ⟨h1, h2, h3, List.mem_cons_of_mem t h4⟩

/-- The first accepted task starts exactly at the cursor the loop began with:
rejected tasks do not move the cursor. -/
theorem packTasks_head_start (dayEnd brk : ℚ) (l : List Task) :
    ∀ (cur : ℚ) (s : ScheduledTask),
      (packTasks dayEnd brk l cur).head? = some s → s.scheduledStart = cur := by
  induction l with
  | nil => intro cur s hs; simp [packTasks] at hs
  | cons t rest ih =>
    intro cur s hs
    by_cases h : cur + t.effort * 60 ≤ dayEnd
    · rw [packTasks_cons_accept _ _ _ _ _ h] at hs
      simp only [List.head?_cons, Option.some.injEq] at hs
      rw [← hs]
    · rw [packTasks_cons_reject _ _ _ _ _ h] at hs
      exact ih cur s hs

/-- Consecutive accepted tasks are separated by exactly the break duration. -/
theorem packTasks_chain (dayEnd brk : ℚ) (l : List Task) :
    ∀ cur : ℚ, (packTasks dayEnd brk l cur).Chain'
      (fun a b => b.scheduledStart = a.scheduledEnd + brk) := by
  induction l with
  | nil => intro cur; simp [packTasks]
  | cons t rest ih =>
    intro cur
    by_cases h : cur + t.effort * 60 ≤ dayEnd
    · rw [packTasks_cons_accept _ _ _ _ _ h]
      refine List.chain'_cons'.mpr ⟨?_, ih _⟩
      intro y hy
      exact packTasks_head_start dayEnd brk rest _ y (Option.mem_def.mp hy)
    · rw [packTasks_cons_reject _ _ _ _ _ h]
      exact ih cur

/-- When the cursor already sits at or past the day end, no positive-effort
task can be accepted. -/
theorem packTasks_eq_nil_of_le (dayEnd brk : ℚ) (l : List Task) :
    ∀ cur : ℚ, dayEnd ≤ cur → (∀ t ∈ l, 0 < t.effort) →
      packTasks dayEnd brk l cur = [] := by
  induction l with
  | nil => intro cur _ _; rfl
  | cons t rest ih =>
    intro cur hc hl
    have heff : 0 < t.effort := hl t (List.mem_cons_self t rest)
    have h : ¬ cur + t.effort * 60 ≤ dayEnd := by nlinarith
    rw [packTasks_cons_reject _ _ _ _ _ h]
    exact ih cur hc fun x hx => hl x (List.mem_cons_of_mem t hx)

/-- Every task of the stable descending sort of the pending tasks is a task of
the input list with `completed = false`. -/
theorem mem_sorted_pending {tasks : List Task} {t : Task}
    (ht : t ∈ List.insertionSort scoreDesc (tasks.filter (fun x => !x.completed))) :
    t ∈ tasks ∧ t.completed = false := by
  have hmem : t ∈ tasks.filter (fun x => !x.completed) :=
    (List.perm_insertionSort scoreDesc _).mem_iff.mp ht
  obtain ⟨h1, h2⟩ := List.mem_filter.mp hmem
  exact ⟨h1, by simpa using h2⟩

/-- In a list whose keys `f x` are pairwise distinct, exactly one entry
carries the key of a given member. -/
theorem countP_key_eq_one {α β : Type} [BEq β] [LawfulBEq β] (f : α → β) :
    ∀ l : List α, (l.map f).Nodup → ∀ t ∈ l,
      l.countP (fun x => f x == f t) = 1 := by
  intro l
  induction l with
  | nil => intro _ t ht; exact absurd ht (List.not_mem_nil t)
  | cons a l ih =>
    intro hnd t ht
    rw [List.map_cons, List.nodup_cons] at hnd
    rcases List.mem_cons.mp ht with rfl | ht'
    · have h0 : l.countP (fun x => f x == f t) = 0 :=
        List.countP_eq_zero.mpr fun x hx hfx => by
          have : f x = f t := by simpa using hfx
          exact hnd.1 (this ▸ List.mem_map_of_mem f hx)
      rw [List.countP_cons, h0]
      simp
    · have h1 := ih hnd.2 t ht'
      have ha : ¬ (f a == f t) = true := fun h => by
        have : f a = f t := by simpa using h
        exact hnd.1 (by rw [this]; exact List.mem_map_of_mem f ht')
      rw [List.countP_cons, h1]
      simp [ha]

/-- C1: the scheduler's packing loop accepts a task exactly when
`cursor + effort` hours fits by the inclusive day-end boundary; a rejection
leaves the cursor unchanged and the loop continues, so a rejected task never
blocks a later, smaller task; on workday 09:00-12:00 with break 0 and tasks
A(score 5, 2 h), B(score 4, 2 h), C(score 1, 1 h), the result is
scheduled = [A at 09:00-11:00, C at 11:00-12:00] and unscheduled = [B]. -/
theorem firstFitByPriority :
    (∀ (dayEnd brk cur : ℚ) (t : Task) (rest : List Task),
        ¬ cur + t.effort * 60 ≤ dayEnd →
        packTasks dayEnd brk (t :: rest) cur = packTasks dayEnd brk rest cur) ∧
    (∀ (dayEnd brk cur : ℚ) (t : Task) (rest : List Task),
        cur + t.effort * 60 ≤ dayEnd →
        packTasks dayEnd brk (t :: rest) cur =
          ⟨t, cur, cur + t.effort * 60⟩ ::
            packTasks dayEnd brk rest (cur + t.effort * 60 + brk)) ∧
    scheduleOptimization [taskA, taskB, taskC] wsMorning =
      { scheduledTasks := [⟨taskA, 540, 660⟩, ⟨taskC, 660, 720⟩],
        unscheduledTasks := [taskB] } := by
  refine ⟨fun dE brk cur t rest h => packTasks_cons_reject dE brk cur t rest h,
    fun dE brk cur t rest h => packTasks_cons_accept dE brk cur t rest h, ?_⟩
  norm_num [scheduleOptimization, packTasks, workdayStartMin, workdayEndMin,
    List.insertionSort, List.orderedInsert, scoreDesc, taskA, taskB, taskC, wsMorning]

/-- Witness for C1: in the concrete scenario, B does not fit at 11:00 in the
09:00-12:00 day, and skipping it leaves the cursor where it was. -/
theorem firstFitByPriority_witness :
    packTasks 720 0 [taskB, taskC] 660 = packTasks 720 0 [taskC] 660 :=
  firstFitByPriority.1 720 0 660 taskB [taskC] (by norm_num [taskB])

/-- C3: with a proper day window, positive efforts and a non-negative break,
every accepted interval lies within the day window, is non-degenerate, and any
two accepted intervals do not overlap. -/
theorem scheduledWithinDay (tasks : List Task) (ws : WorkdaySettings)
    (hcfg : workdayStartMin ws < workdayEndMin ws)
    (heff : ∀ t ∈ tasks, 0 < t.effort)
    (hbrk : 0 ≤ ws.breakDuration) :
    (∀ s ∈ (scheduleOptimization tasks ws).scheduledTasks,
        workdayStartMin ws ≤ s.scheduledStart ∧
        s.scheduledStart < s.scheduledEnd ∧
        s.scheduledEnd ≤ workdayEndMin ws) ∧
    (scheduleOptimization tasks ws).scheduledTasks.Pairwise
      (fun a b => a.scheduledEnd ≤ b.scheduledStart ∨ b.scheduledEnd ≤ a.scheduledStart) := by
  have hsorted : ∀ t ∈ List.insertionSort scoreDesc (tasks.filter (fun x => !x.completed)),
      0 < t.effort := fun t ht => heff t (mem_sorted_pending ht).1
  obtain ⟨hmem, hpw⟩ := packTasks_invariant (workdayEndMin ws) ws.breakDuration hbrk
    (List.insertionSort scoreDesc (tasks.filter (fun x => !x.completed)))
    (workdayStartMin ws) hsorted
  have hsched : (scheduleOptimization tasks ws).scheduledTasks =
      packTasks (workdayEndMin ws) ws.breakDuration
        (List.insertionSort scoreDesc (tasks.filter (fun x => !x.completed)))
        (workdayStartMin ws) := by
    simp [scheduleOptimization]
  constructor
  · intro s hs
    rw [hsched] at hs
    obtain ⟨h1, h2, h3, h4⟩ := hmem s hs
    have he : 0 < s.task.effort := hsorted _ h4
    refine ⟨h1, ?_, h2⟩
    rw [h3]
    nlinarith
  · rw [hsched]
    exact hpw.imp fun h => Or.inl h

/-- Witness for C3 on the concrete 09:00-12:00 scenario. -/
theorem scheduledWithinDay_witness :
    (∀ s ∈ (scheduleOptimization [taskA, taskB, taskC] wsMorning).scheduledTasks,
        workdayStartMin wsMorning ≤ s.scheduledStart ∧
        s.scheduledStart < s.scheduledEnd ∧
        s.scheduledEnd ≤ workdayEndMin wsMorning) ∧
    (scheduleOptimization [taskA, taskB, taskC] wsMorning).scheduledTasks.Pairwise
      (fun a b => a.scheduledEnd ≤ b.scheduledStart ∨ b.scheduledEnd ≤ a.scheduledStart) :=
  scheduledWithinDay [taskA, taskB, taskC] wsMorning
    (by norm_num [workdayStartMin, workdayEndMin, wsMorning])
    (by
      intro t ht
      simp only [List.mem_cons, List.not_mem_nil, or_false] at ht
      rcases ht with rfl | rfl | rfl <;> norm_num [taskA, taskB, taskC])
    (by norm_num [wsMorning])

/-- C5 counterexample: with startTime 18:00 and endTime 09:00 the scheduling
call does not fail and does not report any error; it silently returns a result
with an empty scheduled list and the pending task unscheduled. -/
theorem invalidConfigSilent_counterexample :
    scheduleOptimization [taskT] wsInverted =
      { scheduledTasks := [], unscheduledTasks := [taskT] } := by
  norm_num [scheduleOptimization, packTasks, workdayStartMin, workdayEndMin,
    List.insertionSort, List.orderedInsert, scoreDesc, taskT, wsInverted]

/-- C5 amended: when the resolved day end is not after the day start, the
scheduler performs no validation and silently returns the empty schedule, with
every pending task (in sorted order) unscheduled, instead of raising an
`InvalidWorkdayConfig` error. -/
theorem invalidConfigSilent (tasks : List Task) (ws : WorkdaySettings)
    (hcfg : workdayEndMin ws ≤ workdayStartMin ws)
    (heff : ∀ t ∈ tasks, 0 < t.effort) :
    (scheduleOptimization tasks ws).scheduledTasks = [] ∧
    (scheduleOptimization tasks ws).unscheduledTasks =
      List.insertionSort scoreDesc (tasks.filter (fun t => !t.completed)) := by
  have hsorted : ∀ t ∈ List.insertionSort scoreDesc (tasks.filter (fun x => !x.completed)),
      0 < t.effort := fun t ht => heff t (mem_sorted_pending ht).1
  have hnil := packTasks_eq_nil_of_le (workdayEndMin ws) ws.breakDuration
    (List.insertionSort scoreDesc (tasks.filter (fun x => !x.completed)))
    (workdayStartMin ws) hcfg hsorted
  constructor
  · simpa [scheduleOptimization] using hnil
  · simp [scheduleOptimization, hnil]

/-- Witness for C5 amended, at the concrete inverted configuration. -/
theorem invalidConfigSilent_witness :
    (scheduleOptimization [taskT] wsInverted).scheduledTasks = [] ∧
    (scheduleOptimization [taskT] wsInverted).unscheduledTasks =
      List.insertionSort scoreDesc ([taskT].filter (fun t => !t.completed)) :=
  invalidConfigSilent [taskT] wsInverted
    (by norm_num [workdayStartMin, workdayEndMin, wsInverted])
    (by
      intro t ht
      simp only [List.mem_singleton] at ht
      subst ht
      norm_num [taskT])

/-- C6: consecutive accepted tasks are separated by exactly the break
duration, the first accepted task starts exactly at the day start, and on
workday 09:00-17:00 with break 15 and two equal-score one-hour tasks X then Y,
X is scheduled 09:00-10:00 and Y 10:15-11:15 with nothing after. -/
theorem breakInsertion :
    (∀ (tasks : List Task) (ws : WorkdaySettings),
        (scheduleOptimization tasks ws).scheduledTasks.Chain'
          (fun a b => b.scheduledStart = a.scheduledEnd + ws.breakDuration)) ∧
    (∀ (tasks : List Task) (ws : WorkdaySettings) (s : ScheduledTask),
        (scheduleOptimization tasks ws).scheduledTasks.head? = some s →
        s.scheduledStart = workdayStartMin ws) ∧
    scheduleOptimization [taskX, taskY] wsBreaks =
      { scheduledTasks := [⟨taskX, 540, 600⟩, ⟨taskY, 615, 675⟩],
        unscheduledTasks := [] } := by
  refine ⟨?_, ?_, ?_⟩
  · intro tasks ws
    simpa [scheduleOptimization] using
      packTasks_chain (workdayEndMin ws) ws.breakDuration
        (List.insertionSort scoreDesc (tasks.filter (fun x => !x.completed)))
        (workdayStartMin ws)
  · intro tasks ws s hs
    exact packTasks_head_start (workdayEndMin ws) ws.breakDuration
      (List.insertionSort scoreDesc (tasks.filter (fun x => !x.completed)))
      (workdayStartMin ws) s (by simpa [scheduleOptimization] using hs)
  · norm_num [scheduleOptimization, packTasks, workdayStartMin, workdayEndMin,
      List.insertionSort, List.orderedInsert, scoreDesc, taskX, taskY, wsBreaks]

/-- C2: with pairwise-distinct task ids, the scheduled and unscheduled outputs
partition the incomplete tasks exactly — each incomplete input task occurs
exactly once across the two lists, each completed task occurs in neither, and
every output entry is an incomplete input task. -/
theorem schedulePartition (tasks : List Task) (ws : WorkdaySettings)
    (hids : (tasks.map Task.id).Nodup) :
    (∀ t ∈ tasks, t.completed = false →
        (scheduleOptimization tasks ws).scheduledTasks.countP
            (fun s => s.task.id == t.id) +
          (scheduleOptimization tasks ws).unscheduledTasks.countP
            (fun x => x.id == t.id) = 1) ∧
    (∀ t ∈ tasks, t.completed = true →
        (scheduleOptimization tasks ws).scheduledTasks.countP
            (fun s => s.task.id == t.id) = 0 ∧
        (scheduleOptimization tasks ws).unscheduledTasks.countP
            (fun x => x.id == t.id) = 0) ∧
    (∀ s ∈ (scheduleOptimization tasks ws).scheduledTasks,
        s.task ∈ tasks ∧ s.task.completed = false) ∧
    (∀ u ∈ (scheduleOptimization tasks ws).unscheduledTasks,
        u ∈ tasks ∧ u.completed = false) := by
  have hinj := List.inj_on_of_nodup_map hids
  have hSched : (scheduleOptimization tasks ws).scheduledTasks =
      packTasks (workdayEndMin ws) ws.breakDuration
        (List.insertionSort scoreDesc (tasks.filter (fun x => !x.completed)))
        (workdayStartMin ws) := by
    simp [scheduleOptimization]
  have hUns : (scheduleOptimization tasks ws).unscheduledTasks =
      (List.insertionSort scoreDesc (tasks.filter (fun x => !x.completed))).filter
        (fun x => !((packTasks (workdayEndMin ws) ws.breakDuration
          (List.insertionSort scoreDesc (tasks.filter (fun x => !x.completed)))
          (workdayStartMin ws)).any (fun s => s.task.id == x.id))) := by
    simp [scheduleOptimization]
  have hsublist := packTasks_map_sublist (workdayEndMin ws) ws.breakDuration
    (List.insertionSort scoreDesc (tasks.filter (fun x => !x.completed)))
    (workdayStartMin ws)
  -- count of a key in the sorted pending list, for an incomplete member
  have hsorted_count : ∀ t ∈ tasks, t.completed = false →
      (List.insertionSort scoreDesc (tasks.filter (fun x => !x.completed))).countP
        (fun x => x.id == t.id) = 1 := by
    intro t ht htc
    rw [(List.perm_insertionSort scoreDesc _).countP_eq, List.countP_filter]
    have hcongr : ∀ x ∈ tasks,
        ((x.id == t.id) && !x.completed) = true ↔ (x.id == t.id) = true := by
      intro x hx
      constructor
      · exact fun h => (Bool.and_eq_true_iff.mp h).1
      · intro h
        have hxid : x.id = t.id := by simpa using h
        have hxt : x = t := hinj hx ht hxid
        simp [h, hxt, htc]
    rw [List.countP_congr hcongr]
    exact countP_key_eq_one Task.id tasks hids t ht
  have hsorted_count0 : ∀ t ∈ tasks, t.completed = true →
      (List.insertionSort scoreDesc (tasks.filter (fun x => !x.completed))).countP
        (fun x => x.id == t.id) = 0 := by
    intro t ht htc
    rw [(List.perm_insertionSort scoreDesc _).countP_eq, List.countP_filter]
    refine List.countP_eq_zero.mpr fun x hx hcontra => ?_
    obtain ⟨h1, h2⟩ := Bool.and_eq_true_iff.mp hcontra
    have hxid : x.id = t.id := by simpa using h1
    have hxt : x = t := hinj hx ht hxid
    rw [hxt, htc] at h2
    simp at h2
  -- the count of a key among the scheduled tasks, as a count over the sort
  have hsched_count : ∀ t : Task,
      (scheduleOptimization tasks ws).scheduledTasks.countP
          (fun s => s.task.id == t.id) =
        ((packTasks (workdayEndMin ws) ws.breakDuration
          (List.insertionSort scoreDesc (tasks.filter (fun x => !x.completed)))
          (workdayStartMin ws)).map ScheduledTask.task).countP
            (fun x => x.id == t.id) := by
    intro t
    rw [hSched, List.countP_map]
    rfl
  refine ⟨?_, ?_, ?_, ?_⟩
  · -- incomplete tasks occur exactly once across the two outputs
    intro t ht htc
    have hkey := hsorted_count t ht htc
    have ha_le : (scheduleOptimization tasks ws).scheduledTasks.countP
        (fun s => s.task.id == t.id) ≤ 1 := by
      rw [hsched_count t]
      exact le_trans (hsublist.countP_le _) (le_of_eq hkey)
    have hu : (scheduleOptimization tasks ws).unscheduledTasks.countP
        (fun x => x.id == t.id) =
        if (packTasks (workdayEndMin ws) ws.breakDuration
            (List.insertionSort scoreDesc (tasks.filter (fun x => !x.completed)))
            (workdayStartMin ws)).any (fun s => s.task.id == t.id)
        then 0 else 1 := by
      rw [hUns, List.countP_filter]
      have hcongr : ∀ x ∈ List.insertionSort scoreDesc
          (tasks.filter (fun x => !x.completed)),
          ((x.id == t.id) && !((packTasks (workdayEndMin ws) ws.breakDuration
            (List.insertionSort scoreDesc (tasks.filter (fun x => !x.completed)))
            (workdayStartMin ws)).any (fun s => s.task.id == x.id))) = true ↔
          ((x.id == t.id) && !((packTasks (workdayEndMin ws) ws.breakDuration
            (List.insertionSort scoreDesc (tasks.filter (fun x => !x.completed)))
            (workdayStartMin ws)).any (fun s => s.task.id == t.id))) = true := by
        intro x _
        cases hb : (x.id == t.id) with
        | false => simp [hb]
        | true =>
          have hxid : x.id = t.id := by simpa using hb
          rw [hxid]
      rw [List.countP_congr hcongr]
      cases hany : (packTasks (workdayEndMin ws) ws.breakDuration
          (List.insertionSort scoreDesc (tasks.filter (fun x => !x.completed)))
          (workdayStartMin ws)).any (fun s => s.task.id == t.id) with
      | false => simpa [hany] using hkey
      | true => simp [hany]
    cases hany : (packTasks (workdayEndMin ws) ws.breakDuration
        (List.insertionSort scoreDesc (tasks.filter (fun x => !x.completed)))
        (workdayStartMin ws)).any (fun s => s.task.id == t.id) with
    | false =>
      have ha0 : (scheduleOptimization tasks ws).scheduledTasks.countP
          (fun s => s.task.id == t.id) = 0 := by
        rw [hSched]
        exact List.countP_eq_zero.mpr (List.any_eq_false.mp hany)
      rw [ha0, hu, hany]
      simp
    | true =>
      have ha1 : 0 < (scheduleOptimization tasks ws).scheduledTasks.countP
          (fun s => s.task.id == t.id) := by
        rw [hSched]
        exact List.countP_pos_iff.mpr (List.any_eq_true.mp hany)
      have ha_eq : (scheduleOptimization tasks ws).scheduledTasks.countP
          (fun s => s.task.id == t.id) = 1 := by omega
      rw [ha_eq, hu, hany]
      simp
  · -- completed tasks occur in neither output
    intro t ht htc
    have hkey0 := hsorted_count0 t ht htc
    constructor
    · have := le_trans (hsublist.countP_le (fun x => x.id == t.id)) (le_of_eq hkey0)
      rw [hsched_count t]
      omega
    · have hle : (scheduleOptimization tasks ws).unscheduledTasks.countP
          (fun x => x.id == t.id) ≤ 0 := by
        rw [hUns]
        exact le_trans ((List.filter_sublist _).countP_le _) (le_of_eq hkey0)
      omega
  · -- every scheduled entry is an incomplete input task
    intro s hs
    rw [hSched] at hs
    have : s.task ∈ List.insertionSort scoreDesc (tasks.filter (fun x => !x.completed)) :=
      hsublist.subset (List.mem_map_of_mem ScheduledTask.task hs)
    exact mem_sorted_pending this
  · -- every unscheduled entry is an incomplete input task
    intro u hu
    rw [hUns] at hu
    exact mem_sorted_pending (List.mem_of_mem_filter hu)

/-- Witness for C2 on the concrete three-task scenario: task A occurs exactly
once across the two outputs. -/
theorem schedulePartition_witness :
    (scheduleOptimization [taskA, taskB, taskC] wsMorning).scheduledTasks.countP
        (fun s => s.task.id == taskA.id) +
      (scheduleOptimization [taskA, taskB, taskC] wsMorning).unscheduledTasks.countP
        (fun x => x.id == taskA.id) = 1 :=
  (schedulePartition [taskA, taskB, taskC] wsMorning (by decide)).1 taskA
    (List.mem_cons_self taskA [taskB, taskC]) rfl

/-- Witness for C6: in the concrete scenario, the first scheduled task starts
exactly at the 09:00 day start. -/
theorem breakInsertion_witness :
    (⟨taskX, (540 : ℚ), (600 : ℚ)⟩ : ScheduledTask).scheduledStart =
      workdayStartMin wsBreaks :=
  breakInsertion.2.1 [taskX, taskY] wsBreaks ⟨taskX, (540 : ℚ), (600 : ℚ)⟩
    (by norm_num [scheduleOptimization, packTasks, workdayStartMin, workdayEndMin,
      List.insertionSort, List.orderedInsert, scoreDesc, taskX, taskY, wsBreaks])

/-- Rounding halves-up is monotone, and so is the subsequent division by 10. -/
theorem round_div_ten_mono {x y : ℚ} (h : x ≤ y) :
    (round x : ℚ) / 10 ≤ (round y : ℚ) / 10 := by
  have h1 : round x ≤ round y := by
    rw [round_eq, round_eq]
    exact Int.floor_le_floor (by linarith)
  have h2 : ((round x : ℤ) : ℚ) ≤ ((round y : ℤ) : ℚ) := by exact_mod_cast h1
  linarith

/-- C4 counterexample: at priority 1, effort 3, task created exactly now, the
code returns the quantized value 0.3 while the claim's exact formula gives
1/3; they differ. -/
theorem scoreFormula_counterexample :
    calculatePriorityScore (some 1) (some 3) (some 0) 0 = 3 / 10 ∧
    specScoreFormula 1 3 0 0 = 1 / 3 ∧ (3 / 10 : ℚ) ≠ 1 / 3 := by
  refine ⟨?_, ?_, by norm_num⟩
  · norm_num [calculatePriorityScore, round_eq]
  · norm_num [specScoreFormula]

/-- C4 amended: for guard-passing numeric inputs, `calculatePriorityScore`
returns the spec's exact formula value quantized to one decimal place,
`round(formula * 10) / 10`; the concrete aging scenario (priority 2, effort 4,
created 10 days before now) still yields exactly 1.0. -/
theorem scoreQuantizedFormula :
    (∀ p e c now : ℚ, p ≠ 0 → e ≠ 0 →
        calculatePriorityScore (some p) (some e) (some c) now =
          (round (specScoreFormula p e c now * 10) : ℚ) / 10) ∧
    calculatePriorityScore (some 2) (some 4) (some 0) 864000000 = 1 := by
  constructor
  · intro p e c now hp he
    simp only [calculatePriorityScore, specScoreFormula]
    rw [if_neg (by push_neg; exact ⟨hp, he⟩)]
  · norm_num [calculatePriorityScore, round_eq]

/-- Witness for C4 amended at a concrete guard-passing input. -/
theorem scoreQuantizedFormula_witness :
    calculatePriorityScore (some 1) (some 4) (some 0) 0 =
      (round (specScoreFormula 1 4 0 0 * 10) : ℚ) / 10 :=
  scoreQuantizedFormula.1 1 4 0 0 (by norm_num) (by norm_num)

/-- C7: for priority in [1,5] and effort in [0.5,8], the score is never
negative, for every pair of timestamps — including a creation time after
`now`. -/
theorem scoreNonneg (p e c now : ℚ) (hp1 : 1 ≤ p) (hp5 : p ≤ 5)
    (he1 : 1 / 2 ≤ e) (he8 : e ≤ 8) :
    0 ≤ calculatePriorityScore (some p) (some e) (some c) now := by
  have hp0 : p ≠ 0 := ne_of_gt (by linarith)
  have he0 : e ≠ 0 := ne_of_gt (by linarith)
  simp only [calculatePriorityScore]
  rw [if_neg (by push_neg; exact ⟨hp0, he0⟩)]
  have hmax : (0 : ℚ) < max e (1 / 10) :=
    lt_of_lt_of_le (by norm_num) (le_max_right e (1 / 10))
  have heff : 0 ≤ p / max e (1 / 10) := div_nonneg (by linarith) hmax.le
  have hdays : (0 : ℚ) ≤ max 0 ((now - c) / (1000 * 60 * 60 * 24)) := le_max_left _ _
  have hurg : (0 : ℚ) ≤ 1 + max 0 ((now - c) / (1000 * 60 * 60 * 24)) * (1 / 10) := by
    have := mul_nonneg hdays (by norm_num : (0 : ℚ) ≤ 1 / 10)
    linarith
  have hx : 0 ≤ p / max e (1 / 10) *
      (1 + max 0 ((now - c) / (1000 * 60 * 60 * 24)) * (1 / 10)) * 10 := by
    have := mul_nonneg heff hurg
    linarith
  have hr : (0 : ℤ) ≤ round (p / max e (1 / 10) *
      (1 + max 0 ((now - c) / (1000 * 60 * 60 * 24)) * (1 / 10)) * 10) := by
    rw [round_eq]
    exact Int.le_floor.mpr (by push_cast; linarith)
  exact div_nonneg (by exact_mod_cast hr) (by norm_num)

/-- Witness for C7 at a concrete in-range input with `createdAt` after `now`. -/
theorem scoreNonneg_witness :
    0 ≤ calculatePriorityScore (some 3) (some 2) (some 864000000) 0 :=
  scoreNonneg 3 2 864000000 0 (by norm_num) (by norm_num) (by norm_num) (by norm_num)

/-- C8 counterexample: with numeric priority 1 and effort 1, an Invalid
`Date` createdAt is truthy, escapes the `!createdAt` guard, and produces NaN —
not 0 — while a truthy non-`Date` createdAt throws a TypeError at
`createdAt.getTime()`, so the scorer neither returns 0 nor never raises on the
claim's full domain. -/
theorem scoreDegenerate_counterexample :
    calculatePriorityScoreJS (some 1) (some 1) JSDate.invalidDate 0 =
      ScoreOutcome.nan ∧
    ScoreOutcome.nan ≠ ScoreOutcome.num 0 ∧
    calculatePriorityScoreJS (some 1) (some 1) JSDate.notDate 0 =
      ScoreOutcome.typeError := by
  refine ⟨?_, by simp, ?_⟩ <;> norm_num [calculatePriorityScoreJS]

/-- C8 amended: the scorer returns 0 without raising whenever priority or
effort is missing or non-numeric, or createdAt is missing (the cases the
guards actually catch) — in particular `priority = undefined` yields 0, not an
error; but a truthy non-numeric createdAt escapes the guard: an Invalid `Date`
makes the scorer return NaN, and a non-`Date` value makes it throw a
TypeError at `createdAt.getTime()`. -/
theorem scoreDegenerateGuard :
    (∀ (priority effort : Option ℚ) (createdAt : JSDate) (now : ℚ),
        priority = none ∨ effort = none ∨ createdAt = JSDate.missing →
        calculatePriorityScoreJS priority effort createdAt now =
          ScoreOutcome.num 0) ∧
    (∀ p e now : ℚ, p ≠ 0 → e ≠ 0 →
        calculatePriorityScoreJS (some p) (some e) JSDate.invalidDate now =
          ScoreOutcome.nan) ∧
    (∀ p e now : ℚ, p ≠ 0 → e ≠ 0 →
        calculatePriorityScoreJS (some p) (some e) JSDate.notDate now =
          ScoreOutcome.typeError) := by
  refine ⟨?_, ?_, ?_⟩
  · intro priority effort createdAt now h
    rcases h with rfl | rfl | rfl
    · cases effort <;> rfl
    · cases priority <;> rfl
    · cases priority <;> cases effort <;> simp [calculatePriorityScoreJS]
  · intro p e now hp he
    simp [calculatePriorityScoreJS, hp, he]
  · intro p e now hp he
    simp [calculatePriorityScoreJS, hp, he]

/-- Witness for C8 amended: an undefined priority yields score 0. -/
theorem scoreDegenerateGuard_witness :
    calculatePriorityScoreJS none (some 4) (JSDate.dateOf 0) 0 =
      ScoreOutcome.num 0 :=
  scoreDegenerateGuard.1 none (some 4) (JSDate.dateOf 0) 0 (Or.inl rfl)

/-- C9 counterexample: at priority 1, effort 1, the score for a task aged
one fifth of a day equals the score for a task aged 0 — quantization to one
decimal place destroys strict growth in `daysSinceCreated`. -/
theorem scoreAgingStrict_counterexample :
    (0 : ℚ) < 1 / 5 ∧
    calculatePriorityScore (some 1) (some 1) (some (-17280000)) 0 = 1 ∧
    calculatePriorityScore (some 1) (some 1) (some 0) 0 = 1 ∧
    ¬ calculatePriorityScore (some 1) (some 1) (some 0) 0 <
        calculatePriorityScore (some 1) (some 1) (some (-17280000)) 0 := by
  have h1 : calculatePriorityScore (some 1) (some 1) (some (-17280000)) 0 = 1 := by
    norm_num [calculatePriorityScore, round_eq]
  have h2 : calculatePriorityScore (some 1) (some 1) (some 0) 0 = 1 := by
    norm_num [calculatePriorityScore, round_eq]
  exact ⟨by norm_num, h1, h2, by rw [h1, h2]; exact lt_irrefl 1⟩

/-- C9 amended: for a positive priority and non-zero effort the score is
non-decreasing (not strictly increasing) as the creation time moves further
into the past. -/
theorem scoreAgingMonotone (p e c1 c2 now : ℚ) (hp : 0 < p) (he : e ≠ 0)
    (hc : c2 ≤ c1) :
    calculatePriorityScore (some p) (some e) (some c1) now ≤
      calculatePriorityScore (some p) (some e) (some c2) now := by
  have hp0 : p ≠ 0 := ne_of_gt hp
  simp only [calculatePriorityScore]
  rw [if_neg (by push_neg; exact ⟨hp0, he⟩), if_neg (by push_neg; exact ⟨hp0, he⟩)]
  apply round_div_ten_mono
  have hd : max (0 : ℚ) ((now - c1) / (1000 * 60 * 60 * 24)) ≤
      max 0 ((now - c2) / (1000 * 60 * 60 * 24)) := by
    gcongr <;> linarith
  have heff : 0 ≤ p / max e (1 / 10) :=
    div_nonneg hp.le (le_trans (by norm_num) (le_max_right e (1 / 10)))
  have hkey := mul_le_mul_of_nonneg_left hd heff
  nlinarith [hkey]

/-- Witness for C9 amended: aging a task by a full day does not decrease the
score. -/
theorem scoreAgingMonotone_witness :
    calculatePriorityScore (some 1) (some 1) (some 0) 0 ≤
      calculatePriorityScore (some 1) (some 1) (some (-86400000)) 0 :=
  scoreAgingMonotone 1 1 0 (-86400000) 0 (by norm_num) (by norm_num) (by norm_num)

/-- C10: every guard-passing score is quantized to one decimal place (ten
times the score is an integer), and the two exact formula values 1/3 and 3/10,
which differ by less than 0.05, receive the identical quantized score. -/
theorem scoreQuantization :
    (∀ p e c now : ℚ, p ≠ 0 → e ≠ 0 →
        ∃ n : ℤ, calculatePriorityScore (some p) (some e) (some c) now * 10 = n) ∧
    specScoreFormula 1 3 0 0 - specScoreFormula 3 10 0 0 = 1 / 30 ∧
    (1 / 30 : ℚ) < 1 / 20 ∧
    calculatePriorityScore (some 1) (some 3) (some 0) 0 =
      calculatePriorityScore (some 3) (some 10) (some 0) 0 := by
  refine ⟨?_, ?_, by norm_num, ?_⟩
  · intro p e c now hp he
    refine ⟨round (p / max e (1 / 10) *
      (1 + max 0 ((now - c) / (1000 * 60 * 60 * 24)) * (1 / 10)) * 10), ?_⟩
    simp only [calculatePriorityScore]
    rw [if_neg (by push_neg; exact ⟨hp, he⟩)]
    exact div_mul_cancel₀ _ (by norm_num)
  · norm_num [specScoreFormula]
  · have h1 : calculatePriorityScore (some 1) (some 3) (some 0) 0 = 3 / 10 := by
      norm_num [calculatePriorityScore, round_eq]
    have h2 : calculatePriorityScore (some 3) (some 10) (some 0) 0 = 3 / 10 := by
      norm_num [calculatePriorityScore, round_eq]
    rw [h1, h2]

/-- Witness for C10 at a concrete guard-passing input. -/
theorem scoreQuantization_witness :
    ∃ n : ℤ, calculatePriorityScore (some 1) (some 3) (some 0) 0 * 10 = n :=
  scoreQuantization.1 1 3 0 0 (by norm_num) (by norm_num)

end ZenJourney
